import Mathlib

/-!
# Verification of the linear-algebra and notebook-structure properties of
# the applied-machine-learning tutorial notebooks

The repository consists of three Jupyter notebooks: a tensor tutorial
(NumPy elementwise arithmetic and `tensordot`), an SVD tutorial
(`scipy.linalg.svd`, reconstruction, pseudoinverse, dimensionality
reduction) and a hyperparameter-tuning / CNN-LSTM tutorial
(`GridSearchCV`, `RandomizedSearchCV`, schematic Keras snippets).

Part I embeds the linear algebra of the SVD notebook cells over `ℚ`
(exact arithmetic; the identities use only field axioms, so they hold
verbatim over `ℝ`).  The library routines `svd` and `pinv` are not part
of the repository, so their contracts are modelled from the spec as the
predicates `IsSVD` and `IsPinv`; the matrix expressions the cells build
from the returned factors are translated directly from the cell sources.

Part II embeds the notebook cells themselves as lists of statements
(imports, assignments, print calls, method-call mutations), transcribed
cell by cell from the notebook sources, together with their source line
counts and whether the cell was executed (a recorded `execution_count`).
Builtin names such as `print` and attribute names such as `.shape` or
`.dot` are not tracked as cell-level reads; imported library names and
cell-level variables are.
-/

namespace AppliedML

open Matrix

/-! ## Part I: matrices, the svd contract, and the cell computations -/

/-- Modelled from the spec: the `Sigma` matrix corresponding to the vector
`s` of singular values returned by the library `svd` routine (which is not
part of this repository): the m x n matrix whose leading diagonal block is
`diag(s)`.  The function `s` is read only at indices below `min m n`. -/
def svdSigma (m n : ℕ) (s : ℕ → ℚ) : Matrix (Fin m) (Fin n) ℚ :=
  fun i j => if (i : ℕ) = (j : ℕ) then s i else 0

/-- Modelled from the spec: the contract of the library `svd()` call
(scipy/numpy, not part of this repository): it factors `A` as
`U · Sigma · VT` with `U` and `V` orthogonal.  The ordering of the
singular values is irrelevant to every claim below and is not recorded. -/
def IsSVD (m n : ℕ) (A : Matrix (Fin m) (Fin n) ℚ) (U : Matrix (Fin m) (Fin m) ℚ)
    (s : ℕ → ℚ) (VT : Matrix (Fin n) (Fin n) ℚ) : Prop :=
  A = U * svdSigma m n s * VT ∧ Uᵀ * U = 1 ∧ VTᵀ * VT = 1

/-- The reconstruction cells build `Sigma = zeros((m, n))` and then assign
`Sigma[:n, :n] = diag(s)`: entry (i, j) is the diag entry when both
indices lie in the leading n x n block and 0 otherwise. -/
def cellSigmaColsLead (m n : ℕ) (s : ℕ → ℚ) : Matrix (Fin m) (Fin n) ℚ :=
  fun i j =>
    if (i : ℕ) < n ∧ (j : ℕ) < n then (if (i : ℕ) = (j : ℕ) then s i else 0) else 0

/-- The dimensionality-reduction cell builds `Sigma = zeros((m, n))` and
then assigns `Sigma[:m, :m] = diag(s)`. -/
def cellSigmaRowsLead (m n : ℕ) (s : ℕ → ℚ) : Matrix (Fin m) (Fin n) ℚ :=
  fun i j =>
    if (i : ℕ) < m ∧ (j : ℕ) < m then (if (i : ℕ) = (j : ℕ) then s i else 0) else 0

lemma cellSigmaColsLead_eq (m n : ℕ) (s : ℕ → ℚ) :
    cellSigmaColsLead m n s = svdSigma m n s := by
  ext i j
  simp only [cellSigmaColsLead, svdSigma]
  by_cases h : (i : ℕ) = (j : ℕ)
  · have hj : (j : ℕ) < n := j.isLt
    simp [h, hj]
  · simp [h]

lemma cellSigmaRowsLead_eq (m n : ℕ) (s : ℕ → ℚ) :
    cellSigmaRowsLead m n s = svdSigma m n s := by
  ext i j
  simp only [cellSigmaRowsLead, svdSigma]
  by_cases h : (i : ℕ) = (j : ℕ)
  · have hj : (j : ℕ) < m := h ▸ i.isLt
    simp [h, hj]
  · simp [h]

/-- Claim C1: Reconstruction of a matrix from its SVD factors yields the
original matrix: for every m x n matrix `A` decomposed by `svd()` into
`U`, `s`, `VT`, building `Sigma` as the m x n matrix whose leading
diagonal block is `diag(s)` (this is exactly what the reconstruction
cells build, `cellSigmaColsLead_eq`) and computing `U.dot(Sigma.dot(VT))`
gives back `A`.  In particular the 3x2 and 3x3 reconstruction cells print
a matrix `B` equal to the `A` they started from. -/
theorem svd_reconstruction (m n : ℕ) (A : Matrix (Fin m) (Fin n) ℚ)
    (U : Matrix (Fin m) (Fin m) ℚ) (s : ℕ → ℚ) (VT : Matrix (Fin n) (Fin n) ℚ)
    (h : IsSVD m n A U s VT) :
    U * (svdSigma m n s * VT) = A ∧ U * (cellSigmaColsLead m n s * VT) = A := by
  obtain ⟨hA, -, -⟩ := h
  constructor
  · rw [← Matrix.mul_assoc, ← hA]
  · rw [cellSigmaColsLead_eq, ← Matrix.mul_assoc, ← hA]

/-- Witness for `svd_reconstruction`: the 1 x 1 matrix `[[2]]` with the
trivial orthogonal factors. -/
theorem svd_reconstruction_witness :
    (1 : Matrix (Fin 1) (Fin 1) ℚ) * (svdSigma 1 1 (fun _ => 2) * 1) =
      svdSigma 1 1 (fun _ => 2) := by
  have h : IsSVD 1 1 (svdSigma 1 1 (fun _ => 2)) 1 (fun _ => 2) 1 := by
    refine ⟨by simp, by simp, by simp⟩
  exact (svd_reconstruction 1 1 (svdSigma 1 1 (fun _ => 2)) 1 (fun _ => 2) 1 h).1

/-! ### The pseudoinverse cells -/

/-- The pinv-via-SVD cell computes `d = 1.0 / s`, `D = zeros(A.shape)` and
assigns `D[:n, :n] = diag(d)`. -/
def cellD (m n : ℕ) (s : ℕ → ℚ) : Matrix (Fin m) (Fin n) ℚ :=
  fun i j =>
    if (i : ℕ) < n ∧ (j : ℕ) < n then (if (i : ℕ) = (j : ℕ) then (s i)⁻¹ else 0) else 0

/-- The pinv-via-SVD cell then computes `B = VT.T.dot(D.T).dot(U.T)`. -/
def manualPinv (m n : ℕ) (U : Matrix (Fin m) (Fin m) ℚ) (s : ℕ → ℚ)
    (VT : Matrix (Fin n) (Fin n) ℚ) : Matrix (Fin n) (Fin m) ℚ :=
  VTᵀ * (cellD m n s)ᵀ * Uᵀ

/-- Modelled from the spec: the contract of the library `pinv()` call
(numpy, not part of this repository), characterised by the four
Moore-Penrose conditions, which determine the pseudoinverse uniquely
(`isPinv_unique`). -/
def IsPinv (m n : ℕ) (A : Matrix (Fin m) (Fin n) ℚ)
    (B : Matrix (Fin n) (Fin m) ℚ) : Prop :=
  A * B * A = A ∧ B * A * B = B ∧ (A * B)ᵀ = A * B ∧ (B * A)ᵀ = B * A

/-- The product `Sigma · Dᵀ`: an m x m diagonal projection-like matrix. -/
def projR (m n : ℕ) (s : ℕ → ℚ) : Matrix (Fin m) (Fin m) ℚ :=
  fun i j => if (i : ℕ) = (j : ℕ) ∧ (i : ℕ) < n then s i * (s i)⁻¹ else 0

lemma projR_transpose (m n : ℕ) (s : ℕ → ℚ) : (projR m n s)ᵀ = projR m n s := by
  ext i j
  simp only [Matrix.transpose_apply, projR]
  by_cases h : (i : ℕ) = (j : ℕ)
  · simp [h]
  · have hji : ¬ (j : ℕ) = (i : ℕ) := fun hv => h hv.symm
    simp [h, hji]

lemma cellD_transpose_mul_svdSigma (m n : ℕ) (s : ℕ → ℚ) (hmn : n ≤ m)
    (hs : ∀ k, k < n → s k ≠ 0) :
    (cellD m n s)ᵀ * svdSigma m n s = (1 : Matrix (Fin n) (Fin n) ℚ) := by
  ext i j
  rw [Matrix.mul_apply, Finset.sum_eq_single (Fin.castLE hmn i)]
  · simp only [Matrix.transpose_apply, cellD, svdSigma, Fin.coe_castLE, Matrix.one_apply]
    by_cases h : (i : ℕ) = (j : ℕ)
    · have hij : i = j := Fin.ext h
      simp [hij, j.isLt, inv_mul_cancel₀ (hs (j : ℕ) j.isLt)]
    · have hij : ¬ i = j := fun hij => h (congrArg Fin.val hij)
      simp [h, hij]
  · intro b _ hb
    have hbi : ¬ (b : ℕ) = (i : ℕ) := by
      intro hv
      exact hb (Fin.ext (by simpa using hv))
    simp [Matrix.transpose_apply, cellD, hbi]
  · intro habs
    exact absurd (Finset.mem_univ _) habs

lemma svdSigma_mul_cellD_transpose (m n : ℕ) (s : ℕ → ℚ) :
    svdSigma m n s * (cellD m n s)ᵀ = projR m n s := by
  ext i j
  rw [Matrix.mul_apply]
  by_cases hi : (i : ℕ) < n
  · rw [Finset.sum_eq_single (⟨(i : ℕ), hi⟩ : Fin n)]
    · simp only [svdSigma, cellD, Matrix.transpose_apply, projR]
      by_cases h : (i : ℕ) = (j : ℕ)
      · have hj : (j : ℕ) < n := h ▸ hi
        simp [h, hj]
      · have hji : ¬ (j : ℕ) = (i : ℕ) := fun hv => h hv.symm
        simp [h, hi, hji]
    · intro b _ hb
      have hbi : ¬ (i : ℕ) = (b : ℕ) := by
        intro hv
        exact hb (Fin.ext (by simpa using hv.symm))
      simp [svdSigma, hbi]
    · intro habs
      exact absurd (Finset.mem_univ _) habs
  · rw [Finset.sum_eq_zero]
    · simp [projR, hi]
    · intro b _
      have hbi : ¬ (i : ℕ) = (b : ℕ) := by
        intro hv
        exact hi (hv ▸ b.isLt)
      simp [svdSigma, hbi]

/-- The four Moore-Penrose conditions determine the pseudoinverse
uniquely. -/
lemma isPinv_unique (m n : ℕ) (A : Matrix (Fin m) (Fin n) ℚ)
    (B C : Matrix (Fin n) (Fin m) ℚ)
    (hB : IsPinv m n A B) (hC : IsPinv m n A C) : B = C := by
  obtain ⟨hB1, hB2, hB3, hB4⟩ := hB
  obtain ⟨hC1, hC2, hC3, hC4⟩ := hC
  have hAB : A * B = A * C := by
    calc A * B = (A * B)ᵀ := hB3.symm
      _ = Bᵀ * Aᵀ := Matrix.transpose_mul A B
      _ = Bᵀ * (A * C * A)ᵀ := by rw [hC1]
      _ = Bᵀ * (Aᵀ * (A * C)ᵀ) := by rw [Matrix.transpose_mul (A * C) A]
      _ = Bᵀ * (Aᵀ * (Cᵀ * Aᵀ)) := by rw [Matrix.transpose_mul A C]
      _ = (Bᵀ * Aᵀ) * (Cᵀ * Aᵀ) := by rw [Matrix.mul_assoc]
      _ = (A * B)ᵀ * (A * C)ᵀ := by rw [Matrix.transpose_mul A B, Matrix.transpose_mul A C]
      _ = (A * B) * (A * C) := by rw [hB3, hC3]
      _ = A * B * A * C := by rw [Matrix.mul_assoc (A * B) A C]
      _ = A * C := by rw [hB1]
  have hBA : B * A = C * A := by
    calc B * A = (B * A)ᵀ := hB4.symm
      _ = Aᵀ * Bᵀ := Matrix.transpose_mul B A
      _ = (A * C * A)ᵀ * Bᵀ := by rw [hC1]
      _ = (Aᵀ * (A * C)ᵀ) * Bᵀ := by rw [Matrix.transpose_mul (A * C) A]
      _ = (Aᵀ * (Cᵀ * Aᵀ)) * Bᵀ := by rw [Matrix.transpose_mul A C]
      _ = ((Aᵀ * Cᵀ) * Aᵀ) * Bᵀ := by rw [Matrix.mul_assoc Aᵀ Cᵀ Aᵀ]
      _ = (Aᵀ * Cᵀ) * (Aᵀ * Bᵀ) := by rw [Matrix.mul_assoc]
      _ = (C * A)ᵀ * (B * A)ᵀ := by rw [Matrix.transpose_mul C A, Matrix.transpose_mul B A]
      _ = (C * A) * (B * A) := by rw [hC4, hB4]
      _ = C * (A * (B * A)) := by rw [Matrix.mul_assoc]
      _ = C * (A * B * A) := by rw [Matrix.mul_assoc A B A]
      _ = C * A := by rw [hB1]
  calc B = B * A * B := hB2.symm
    _ = (C * A) * B := by rw [hBA]
    _ = C * (A * B) := by rw [Matrix.mul_assoc]
    _ = C * (A * C) := by rw [hAB]
    _ = C * A * C := by rw [Matrix.mul_assoc]
    _ = C := hC2

lemma manualPinv_mul_self (m n : ℕ) (A : Matrix (Fin m) (Fin n) ℚ)
    (U : Matrix (Fin m) (Fin m) ℚ) (s : ℕ → ℚ) (VT : Matrix (Fin n) (Fin n) ℚ)
    (h : IsSVD m n A U s VT) (hmn : n ≤ m) (hs : ∀ k, k < n → s k ≠ 0) :
    manualPinv m n U s VT * A = 1 := by
  obtain ⟨hA, hU, hV⟩ := h
  rw [hA, manualPinv]
  calc (VTᵀ * (cellD m n s)ᵀ * Uᵀ) * (U * svdSigma m n s * VT)
      = VTᵀ * ((cellD m n s)ᵀ * ((Uᵀ * U) * (svdSigma m n s * VT))) := by
        simp only [Matrix.mul_assoc]
    _ = VTᵀ * ((cellD m n s)ᵀ * (svdSigma m n s * VT)) := by
        rw [hU, Matrix.one_mul]
    _ = VTᵀ * (((cellD m n s)ᵀ * svdSigma m n s) * VT) := by
        rw [Matrix.mul_assoc]
    _ = VTᵀ * VT := by
        rw [cellD_transpose_mul_svdSigma m n s hmn hs, Matrix.one_mul]
    _ = 1 := hV

lemma manualPinv_isPinv (m n : ℕ) (A : Matrix (Fin m) (Fin n) ℚ)
    (U : Matrix (Fin m) (Fin m) ℚ) (s : ℕ → ℚ) (VT : Matrix (Fin n) (Fin n) ℚ)
    (h : IsSVD m n A U s VT) (hmn : n ≤ m) (hs : ∀ k, k < n → s k ≠ 0) :
    IsPinv m n A (manualPinv m n U s VT) := by
  have hBA : manualPinv m n U s VT * A = 1 := manualPinv_mul_self m n A U s VT h hmn hs
  obtain ⟨hA, hU, hV⟩ := h
  have hVV : VT * VTᵀ = 1 := Matrix.mul_eq_one_comm.mp hV
  have hABstruct : A * manualPinv m n U s VT = U * (projR m n s * Uᵀ) := by
    rw [hA, manualPinv]
    calc (U * svdSigma m n s * VT) * (VTᵀ * (cellD m n s)ᵀ * Uᵀ)
        = U * (svdSigma m n s * ((VT * VTᵀ) * ((cellD m n s)ᵀ * Uᵀ))) := by
          simp only [Matrix.mul_assoc]
      _ = U * (svdSigma m n s * ((cellD m n s)ᵀ * Uᵀ)) := by
          rw [hVV, Matrix.one_mul]
      _ = U * ((svdSigma m n s * (cellD m n s)ᵀ) * Uᵀ) := by
          rw [Matrix.mul_assoc]
      _ = U * (projR m n s * Uᵀ) := by
          rw [svdSigma_mul_cellD_transpose]
  refine ⟨?_, ?_, ?_, ?_⟩
  · rw [Matrix.mul_assoc, hBA, Matrix.mul_one]
  · rw [hBA, Matrix.one_mul]
  · rw [hABstruct, Matrix.transpose_mul U (projR m n s * Uᵀ),
      Matrix.transpose_mul (projR m n s) Uᵀ, Matrix.transpose_transpose,
      projR_transpose, Matrix.mul_assoc]
  · rw [hBA, Matrix.transpose_one]

/-- Claim C2: the pseudoinverse computed manually from the SVD equals the
library pseudoinverse: for every matrix `A` all of whose singular values
are nonzero (as holds for the 4x2 matrix in both pseudoinverse cells),
`VT.T.dot(D.T).dot(U.T)` — with `D` the m x n matrix holding
`diag(1.0/s)` — equals `pinv(A)` in exact arithmetic, where `pinv(A)` is
characterised by the Moore-Penrose conditions. -/
theorem pinv_manual_eq_library (m n : ℕ) (A : Matrix (Fin m) (Fin n) ℚ)
    (U : Matrix (Fin m) (Fin m) ℚ) (s : ℕ → ℚ) (VT : Matrix (Fin n) (Fin n) ℚ)
    (P : Matrix (Fin n) (Fin m) ℚ)
    (h : IsSVD m n A U s VT) (hmn : n ≤ m) (hs : ∀ k, k < n → s k ≠ 0)
    (hP : IsPinv m n A P) :
    manualPinv m n U s VT = P :=
  isPinv_unique m n A (manualPinv m n U s VT) P
    (manualPinv_isPinv m n A U s VT h hmn hs) hP

/-- Witness for `pinv_manual_eq_library`: the 1 x 1 matrix `[[2]]`, whose
Moore-Penrose pseudoinverse is `[[1/2]]`. -/
theorem pinv_manual_eq_library_witness :
    manualPinv 1 1 1 (fun _ => 2) 1 = (cellD 1 1 (fun _ => 2))ᵀ := by
  have h : IsSVD 1 1 (svdSigma 1 1 (fun _ => 2)) 1 (fun _ => 2) 1 :=
    ⟨by simp, by simp, by simp⟩
  have hs : ∀ k, k < 1 → (fun _ : ℕ => (2 : ℚ)) k ≠ 0 := fun k _ => two_ne_zero
  have hP : IsPinv 1 1 (svdSigma 1 1 (fun _ => 2)) ((cellD 1 1 (fun _ => 2))ᵀ) := by
    refine ⟨?_, ?_, ?_, ?_⟩ <;>
      · ext i j
        fin_cases i
        fin_cases j
        simp [svdSigma, cellD, Matrix.mul_apply]
  exact pinv_manual_eq_library 1 1 (svdSigma 1 1 (fun _ => 2)) 1 (fun _ => 2) 1
    ((cellD 1 1 (fun _ => 2))ᵀ) h (le_refl 1) hs hP

/-! ### The dimensionality-reduction cell -/

/-- The dimensionality-reduction cell selects the first `n_elements`
columns: `Sigma = Sigma[:, :n_elements]`. -/
def takeCols (m n k : ℕ) (hk : k ≤ n) (M : Matrix (Fin m) (Fin n) ℚ) :
    Matrix (Fin m) (Fin k) ℚ :=
  fun i j => M i (Fin.castLE hk j)

/-- The dimensionality-reduction cell selects the first `n_elements`
rows: `VT = VT[:n_elements, :]`. -/
def takeRows (m n k : ℕ) (hk : k ≤ m) (M : Matrix (Fin m) (Fin n) ℚ) :
    Matrix (Fin k) (Fin n) ℚ :=
  fun i j => M (Fin.castLE hk i) j

/-- The n x k matrix embedding the first k coordinates. -/
def embedMat (n k : ℕ) : Matrix (Fin n) (Fin k) ℚ :=
  fun i j => if (i : ℕ) = (j : ℕ) then 1 else 0

lemma mul_takeRows_transpose (n k : ℕ) (hk : k ≤ n) (VT : Matrix (Fin n) (Fin n) ℚ)
    (hVV : VT * VTᵀ = 1) :
    VT * (takeRows n n k hk VT)ᵀ = embedMat n k := by
  ext i j
  calc (VT * (takeRows n n k hk VT)ᵀ) i j
      = (VT * VTᵀ) i (Fin.castLE hk j) := by
        rw [Matrix.mul_apply, Matrix.mul_apply]
        exact Finset.sum_congr rfl (fun l _ => rfl)
    _ = if i = Fin.castLE hk j then 1 else 0 := by rw [hVV, Matrix.one_apply]
    _ = embedMat n k i j := by
        simp only [embedMat]
        by_cases h : (i : ℕ) = (j : ℕ)
        · rw [if_pos (Fin.ext (by simpa using h)), if_pos h]
        · rw [if_neg, if_neg h]
          exact fun hc => h (by simpa using congrArg Fin.val hc)

lemma svdSigma_mul_embed (m n k : ℕ) (hk : k ≤ n) (s : ℕ → ℚ) :
    svdSigma m n s * embedMat n k = takeCols m n k hk (svdSigma m n s) := by
  ext i j
  rw [Matrix.mul_apply, Finset.sum_eq_single (Fin.castLE hk j)]
  · simp [takeCols, embedMat]
  · intro b _ hb
    have hbj : ¬ (b : ℕ) = (j : ℕ) := fun hv => hb (Fin.ext (by simpa using hv))
    simp [embedMat, hbj]
  · intro habs
    exact absurd (Finset.mem_univ _) habs

/-- Claim C3: the two ways of computing the reduced transform agree: for every
matrix `A` with SVD `U`, `s`, `VT` and every `k` not exceeding the number
of singular values, `U.dot(Sigma_k)` equals `A.dot(VT_k.T)` in exact
arithmetic, where `Sigma_k` keeps the first k columns of the embedded
diagonal matrix built by the cell and `VT_k` the first k rows of `VT`;
hence the two `T` values printed by the dimensionality-reduction cell are
equal. -/
theorem reduced_transform_agree (m n k : ℕ) (A : Matrix (Fin m) (Fin n) ℚ)
    (U : Matrix (Fin m) (Fin m) ℚ) (s : ℕ → ℚ) (VT : Matrix (Fin n) (Fin n) ℚ)
    (h : IsSVD m n A U s VT) (hk : k ≤ min m n) :
    U * takeCols m n k (hk.trans (min_le_right m n)) (cellSigmaRowsLead m n s)
      = A * (takeRows n n k (hk.trans (min_le_right m n)) VT)ᵀ := by
  obtain ⟨hA, hU, hV⟩ := h
  have hVV : VT * VTᵀ = 1 := Matrix.mul_eq_one_comm.mp hV
  rw [cellSigmaRowsLead_eq, hA]
  symm
  calc (U * svdSigma m n s * VT) * (takeRows n n k (hk.trans (min_le_right m n)) VT)ᵀ
      = U * (svdSigma m n s * (VT * (takeRows n n k (hk.trans (min_le_right m n)) VT)ᵀ)) := by
        simp only [Matrix.mul_assoc]
    _ = U * (svdSigma m n s * embedMat n k) := by
        rw [mul_takeRows_transpose n k (hk.trans (min_le_right m n)) VT hVV]
    _ = U * takeCols m n k (hk.trans (min_le_right m n)) (svdSigma m n s) := by
        rw [svdSigma_mul_embed]

/-- Witness for `reduced_transform_agree`: the 1 x 1 matrix `[[2]]` with
`k = 1`. -/
theorem reduced_transform_agree_witness :
    (1 : Matrix (Fin 1) (Fin 1) ℚ) *
        takeCols 1 1 1 (le_refl 1) (cellSigmaRowsLead 1 1 (fun _ => 2))
      = svdSigma 1 1 (fun _ => 2) * (takeRows 1 1 1 (le_refl 1) 1)ᵀ := by
  have h : IsSVD 1 1 (svdSigma 1 1 (fun _ => 2)) 1 (fun _ => 2) 1 :=
    ⟨by simp, by simp, by simp⟩
  exact reduced_transform_agree 1 1 1 (svdSigma 1 1 (fun _ => 2)) 1 (fun _ => 2) 1 h
    (by decide)

/-! ## Part II: the notebook cells as data

Each code cell is transcribed as a list of statements.  A statement is
an import (binding library names), an assignment (binding cell-level
variables and reading others), a `print` call, or a method call mutating
a named object (`Sigma[...] = diag(s)`, `grid.fit(...)`, `model.add(...)`).
No cell of the repository contains a `try`/`except` or any other guard,
which the transcription records by the absence of the `guard` statement.
Builtin names (`print`, `dict`) and attribute names (`.shape`, `.dot`,
`.T`) are not tracked; imported library names and cell-level variables
are. -/

/-- The cell-level names (variables and imported library names) occurring
in the notebooks. -/
inductive VName where
  | array | svd | diag | dot | zeros | pinv | tensordot
  | np | datasets | Ridge | GridSearchCV | RandomizedSearchCV | sp_rand
  | TruncatedSVD | Sequential | Conv2D | MaxPooling2D | Flatten
  | TimeDistributed | LSTM | Dense
  | A | B | C | T | U | s | VT | Sigma | d | D | n_elements
  | dataset | alphas | model | grid | param_grid | rsearch | result | cnn
deriving DecidableEq

/-- Identifiers for the code cells of the three notebooks. -/
inductive CellId where
  | createTensor | tensorAdd | tensorSub | tensorHadamard | tensorDiv
  | tensorProduct
  | svdCalc | reconstruct32 | reconstruct33 | pinvCell | pinvViaSvd
  | dimReduction | truncatedSvdCell
  | gridSearch | randomSearch
  | cnnModel | lstmSnippet
deriving DecidableEq

/-- A notebook statement, as far as cell-level name binding, reading,
printing and mutation are concerned. -/
inductive Stmt where
  | imprt (names : List VName)
  | assign (lhs : List VName) (reads : List VName)
  | callPrint (reads : List VName)
  | callMutate (target : VName) (reads : List VName)
  | guard
deriving DecidableEq

def Stmt.binds : Stmt → List VName
  | .imprt ns => ns
  | .assign ls _ => ls
  | .callPrint _ => []
  | .callMutate _ _ => []
  | .guard => []

def Stmt.uses : Stmt → List VName
  | .imprt _ => []
  | .assign _ rs => rs
  | .callPrint rs => rs
  | .callMutate t rs => t :: rs
  | .guard => []

def Stmt.isGuard : Stmt → Bool
  | .guard => true
  | _ => false

def Stmt.isImport : Stmt → Bool
  | .imprt _ => true
  | _ => false

def Stmt.isPrint : Stmt → Bool
  | .callPrint _ => true
  | _ => false

/-- A code cell: its identifier, its source line count, whether the
notebook records an `execution_count` for it, and its statements. -/
structure Cell where
  id : CellId
  lines : ℕ
  executed : Bool
  stmts : List Stmt
deriving DecidableEq

/-- A cell is standalone when every name it reads was bound earlier in
the same cell (by an import or an assignment): its behaviour does not
depend on any name bound by a different cell or notebook. -/
def standaloneAux : List VName → List Stmt → Bool
  | _, [] => true
  | env, st :: rest =>
      st.uses.all (fun x => env.contains x) && standaloneAux (env ++ st.binds) rest

def standalone (c : Cell) : Bool := standaloneAux [] c.stmts

/-- The observable effects of running a cell. -/
inductive Effect where
  | print
  | mutate (target : VName)
deriving DecidableEq

/-- Execution of a cell in a fresh environment: statements run in order;
a statement reading an unbound name raises a NameError, which stops the
cell, so no later effect occurs. -/
def runAux : List VName → List Stmt → List Effect
  | env, .imprt ns :: rest => runAux (env ++ ns) rest
  | env, .assign ls rs :: rest =>
      if rs.all (fun x => env.contains x) then runAux (env ++ ls) rest else []
  | env, .callPrint rs :: rest =>
      if rs.all (fun x => env.contains x) then .print :: runAux env rest else []
  | env, .callMutate t rs :: rest =>
      if (t :: rs).all (fun x => env.contains x) then .mutate t :: runAux env rest
      else []
  | env, .guard :: rest => runAux env rest
  | _, [] => []

def runEffects (c : Cell) : List Effect := runAux [] c.stmts

/-- The names a cell binds itself. -/
def boundNames (c : Cell) : List VName := (c.stmts.map Stmt.binds).flatten

/-- The library names a cell imports. -/
def importedNames (c : Cell) : List VName :=
  (c.stmts.map (fun st => if st.isImport then st.binds else [])).flatten

def hasGuard (c : Cell) : Bool := c.stmts.any Stmt.isGuard

def printCount (c : Cell) : ℕ := c.stmts.countP Stmt.isPrint

/-- The number of statements of a cell that invoke an imported library
name (a statement may chain several library calls; it is counted once). -/
def libStmtCount (c : Cell) : ℕ :=
  c.stmts.countP (fun st =>
    !st.isImport && st.uses.any (fun x => (importedNames c).contains x))

/-- An effect stays local to the cell when it is a print or a mutation of
a name the cell itself bound. -/
def effectLocal (c : Cell) : Effect → Bool
  | .print => true
  | .mutate t => (boundNames c).contains t

/-! ### Transcription of the tensor notebook (6 executed cells) -/

def createTensorCell : Cell :=
  ⟨.createTensor, 9, true,
    [.imprt [.array], .assign [.T] [.array], .callPrint [.T], .callPrint [.T]]⟩

def tensorAddCell : Cell :=
  ⟨.tensorAdd, 14, true,
    [.imprt [.array], .assign [.A] [.array], .assign [.B] [.array],
     .assign [.C] [.A, .B], .callPrint [.C]]⟩

def tensorSubCell : Cell :=
  ⟨.tensorSub, 14, true,
    [.imprt [.array], .assign [.A] [.array], .assign [.B] [.array],
     .assign [.C] [.A, .B], .callPrint [.C]]⟩

def tensorHadamardCell : Cell :=
  ⟨.tensorHadamard, 14, true,
    [.imprt [.array], .assign [.A] [.array], .assign [.B] [.array],
     .assign [.C] [.A, .B], .callPrint [.C]]⟩

def tensorDivCell : Cell :=
  ⟨.tensorDiv, 14, true,
    [.imprt [.array], .assign [.A] [.array], .assign [.B] [.array],
     .assign [.C] [.A, .B], .callPrint [.C]]⟩

def tensorProductCell : Cell :=
  ⟨.tensorProduct, 7, true,
    [.imprt [.array], .imprt [.tensordot], .assign [.A] [.array],
     .assign [.B] [.array], .assign [.C] [.tensordot, .A, .B], .callPrint [.C]]⟩

/-! ### Transcription of the SVD notebook (7 executed cells) -/

def svdCalcCell : Cell :=
  ⟨.svdCalc, 11, true,
    [.imprt [.array], .imprt [.svd], .assign [.A] [.array], .callPrint [.A],
     .assign [.U, .s, .VT] [.svd, .A], .callPrint [.U], .callPrint [.s],
     .callPrint [.VT]]⟩

def reconstruct32Cell : Cell :=
  ⟨.reconstruct32, 18, true,
    [.imprt [.array], .imprt [.diag], .imprt [.dot], .imprt [.zeros],
     .imprt [.svd], .assign [.A] [.array], .callPrint [.A],
     .assign [.U, .s, .VT] [.svd, .A], .assign [.Sigma] [.zeros, .A],
     .callMutate .Sigma [.diag, .s, .A], .assign [.B] [.U, .Sigma, .VT],
     .callPrint [.B]]⟩

def reconstruct33Cell : Cell :=
  ⟨.reconstruct33, 15, true,
    [.imprt [.array], .imprt [.diag], .imprt [.dot], .imprt [.svd],
     .assign [.A] [.array], .callPrint [.A], .assign [.U, .s, .VT] [.svd, .A],
     .assign [.Sigma] [.diag, .s], .assign [.B] [.U, .Sigma, .VT],
     .callPrint [.B]]⟩

def pinvCellCell : Cell :=
  ⟨.pinvCell, 13, true,
    [.imprt [.array], .imprt [.pinv], .assign [.A] [.array], .callPrint [.A],
     .assign [.B] [.pinv, .A], .callPrint [.B]]⟩

def pinvViaSvdCell : Cell :=
  ⟨.pinvViaSvd, 23, true,
    [.imprt [.array], .imprt [.svd], .imprt [.zeros], .imprt [.diag],
     .assign [.A] [.array], .callPrint [.A], .assign [.U, .s, .VT] [.svd, .A],
     .assign [.d] [.s], .assign [.D] [.zeros, .A],
     .callMutate .D [.diag, .d, .A], .assign [.B] [.VT, .D, .U],
     .callPrint [.B]]⟩

def dimReductionCell : Cell :=
  ⟨.dimReduction, 28, true,
    [.imprt [.array], .imprt [.diag], .imprt [.zeros], .imprt [.svd],
     .assign [.A] [.array], .callPrint [.A], .assign [.U, .s, .VT] [.svd, .A],
     .assign [.Sigma] [.zeros, .A], .callMutate .Sigma [.diag, .s, .A],
     .assign [.n_elements] [], .assign [.Sigma] [.Sigma, .n_elements],
     .assign [.VT] [.VT, .n_elements], .assign [.B] [.U, .Sigma, .VT],
     .callPrint [.B], .assign [.T] [.U, .Sigma], .callPrint [.T],
     .assign [.T] [.A, .VT], .callPrint [.T]]⟩

def truncatedSvdCellCell : Cell :=
  ⟨.truncatedSvdCell, 13, true,
    [.imprt [.array], .imprt [.TruncatedSVD], .assign [.A] [.array],
     .callPrint [.A], .assign [.svd] [.TruncatedSVD], .callMutate .svd [.A],
     .assign [.result] [.svd, .A], .callPrint [.result]]⟩

/-! ### Transcription of the tuning notebook (2 executed cells) -/

def gridSearchCell : Cell :=
  ⟨.gridSearch, 17, true,
    [.imprt [.np], .imprt [.datasets], .imprt [.Ridge], .imprt [.GridSearchCV],
     .assign [.dataset] [.datasets], .assign [.alphas] [.np],
     .assign [.model] [.Ridge], .assign [.grid] [.GridSearchCV, .model, .alphas],
     .callMutate .grid [.dataset], .callPrint [.grid], .callPrint [.grid],
     .callPrint [.grid]]⟩

def randomSearchCell : Cell :=
  ⟨.randomSearch, 18, true,
    [.imprt [.np], .imprt [.sp_rand], .imprt [.datasets], .imprt [.Ridge],
     .imprt [.RandomizedSearchCV], .assign [.dataset] [.datasets],
     .assign [.param_grid] [.sp_rand], .assign [.model] [.Ridge],
     .assign [.rsearch] [.RandomizedSearchCV, .model, .param_grid],
     .callMutate .rsearch [.dataset], .callPrint [.rsearch],
     .callPrint [.rsearch], .callPrint [.rsearch]]⟩

/-! ### Transcription of the CNN-LSTM notebook (schematic cells, never
executed; the two remaining code cells of that notebook are not valid
Python — `LSTM(..)` and an unbalanced parenthesis — and cannot run at
all) -/

def cnnModelCell : Cell :=
  ⟨.cnnModel, 4, false,
    [.assign [.cnn] [.Sequential], .callMutate .cnn [.Conv2D],
     .callMutate .cnn [.MaxPooling2D], .callMutate .cnn [.Flatten]]⟩

def lstmSnippetCell : Cell :=
  ⟨.lstmSnippet, 3, false,
    [.callMutate .model [.TimeDistributed], .callMutate .model [.LSTM],
     .callMutate .model [.Dense]]⟩

/-- Every transcribed code cell of the repository. -/
def allCells : List Cell :=
  [createTensorCell, tensorAddCell, tensorSubCell, tensorHadamardCell,
   tensorDivCell, tensorProductCell, svdCalcCell, reconstruct32Cell,
   reconstruct33Cell, pinvCellCell, pinvViaSvdCell, dimReductionCell,
   truncatedSvdCellCell, gridSearchCell, randomSearchCell, cnnModelCell,
   lstmSnippetCell]

/-- The cells with a recorded `execution_count` (the one-shot numeric
computations). -/
def executedCells : List Cell := allCells.filter (fun c => c.executed)

/-! ### Claims about the cell structure -/

/-- Claim C4 counterexample: the claim that every code cell is standalone with
no shared state fails on the LSTM snippet cell of the CNN-LSTM notebook
(`model.add(TimeDistributed(...))` and two further `model.add` lines),
which reads `model`, `TimeDistributed`, `LSTM` and `Dense` without
binding any of them: its behaviour is not determined by its own source
alone. -/
theorem standalone_counterexample :
    (allCells.all (fun c => standalone c)) = false
      ∧ standalone lstmSnippetCell = false := by
  constructor
  · decide
  · decide

/-- Claim C4 amended: every executed code cell (every cell with a recorded
`execution_count`, i.e. every one-shot numeric computation) is
standalone: each name it reads was bound earlier in the same cell by
an import or an assignment, so its behaviour does not depend on any name
bound by a different cell or a different notebook.  The schematic Keras
cells of the CNN-LSTM notebook, which were never executed, are the only
transcribed cells that are not standalone. -/
theorem executed_cells_standalone :
    (executedCells.all (fun c => standalone c)) = true
      ∧ (allCells.filter (fun c => !standalone c)).map Cell.id
          = [CellId.cnnModel, CellId.lstmSnippet] := by
  constructor
  · decide
  · decide

/-- Claim C7: no code cell persists state or produces any effect beyond its
printed output: running any transcribed cell in a fresh environment
produces only print effects and mutations of objects the cell itself
bound (the transcription contains no file or persistence operation —
none occurs in the notebooks). -/
theorem cells_no_external_effects :
    (allCells.all (fun c => (runEffects c).all (fun e => effectLocal c e))) = true := by
  decide

/-- Claim C8 counterexample: the claim that every one-shot numeric computation
is fewer than 20 lines long fails on the dimensionality-reduction cell of
the SVD notebook, whose source is 28 lines. -/
theorem cell_lines_counterexample :
    dimReductionCell.lines = 28 ∧ ¬ dimReductionCell.lines < 20 := by
  constructor
  · rfl
  · decide

/-- Claim C8 amended: every executed code cell is fewer than 29 lines long, and
every executed code cell other than the pseudoinverse-via-SVD cell
(23 lines) and the dimensionality-reduction cell (28 lines) is fewer than
20 lines long. -/
theorem cell_lines_bound :
    (executedCells.all (fun c => decide (c.lines < 29))) = true
      ∧ (executedCells.filter (fun c => decide (20 ≤ c.lines))).map Cell.id
          = [CellId.pinvViaSvd, CellId.dimReduction] := by
  constructor
  · decide
  · decide

/-- Claim C9 counterexample: the claim that every executable section performs
exactly one library call and then prints its result fails on the
pseudoinverse-via-SVD cell, which has four statements invoking imported
library names (`array`, `svd`, `zeros`, `diag`) and two print
statements. -/
theorem one_call_one_print_counterexample :
    libStmtCount pinvViaSvdCell = 4 ∧ printCount pinvViaSvdCell = 2
      ∧ ¬ (libStmtCount pinvViaSvdCell = 1 ∧ printCount pinvViaSvdCell = 1) := by
  refine ⟨by decide, by decide, by decide⟩

/-- Claim C9 amended: every executed code cell performs at least one library
call and prints at least one result (several cells chain several library
calls and several prints). -/
theorem cells_call_library_and_print :
    (executedCells.all (fun c =>
      decide (1 ≤ libStmtCount c) && decide (1 ≤ printCount c))) = true := by
  decide

/-! ### Claim C5: no error handling, and the error branches are
unreachable on the supplied inputs -/

/-- The 3 x 3 x 3 tensor `A` of the tensor-division cell. -/
def tensorA : List (List (List ℚ)) :=
  [[[1, 2, 3], [4, 5, 6], [7, 8, 9]],
   [[11, 12, 13], [14, 15, 16], [17, 18, 19]],
   [[21, 22, 23], [24, 25, 26], [27, 28, 29]]]

/-- The divisor tensor `B` of the tensor-division cell. -/
def tensorB : List (List (List ℚ)) :=
  [[[1, 2, 3], [4, 5, 6], [7, 8, 9]],
   [[11, 12, 13], [14, 15, 16], [17, 18, 19]],
   [[21, 22, 23], [24, 25, 26], [27, 28, 29]]]

/-- Division with its error branch made explicit: `none` models the
error a division by zero would raise. -/
def checkedDiv (a b : ℚ) : Option ℚ := if b = 0 then none else some (a / b)

def checkedVecDiv : List ℚ → List ℚ → Option (List ℚ)
  | [], [] => some []
  | a :: as, b :: bs =>
      match checkedDiv a b, checkedVecDiv as bs with
      | some c, some cs => some (c :: cs)
      | _, _ => none
  | _, _ => none

def checkedMatDiv : List (List ℚ) → List (List ℚ) → Option (List (List ℚ))
  | [], [] => some []
  | a :: as, b :: bs =>
      match checkedVecDiv a b, checkedMatDiv as bs with
      | some c, some cs => some (c :: cs)
      | _, _ => none
  | _, _ => none

/-- The element-wise tensor division `C = A / B` of the tensor-division
cell, with shape mismatches and division by zero made explicit as
`none`. -/
def checkedTensorDiv :
    List (List (List ℚ)) → List (List (List ℚ)) → Option (List (List (List ℚ)))
  | [], [] => some []
  | a :: as, b :: bs =>
      match checkedMatDiv a b, checkedTensorDiv as bs with
      | some c, some cs => some (c :: cs)
      | _, _ => none
  | _, _ => none

/-- The 4 x 2 matrix `A` of the two pseudoinverse cells. -/
def A42 : Matrix (Fin 4) (Fin 2) ℚ :=
  fun i j => ![![0.1, 0.2], ![0.3, 0.4], ![0.5, 0.6], ![0.7, 0.8]] i j

lemma svdSigma_transpose_mul_self (m n : ℕ) (s : ℕ → ℚ) (hmn : n ≤ m) :
    (svdSigma m n s)ᵀ * svdSigma m n s
      = Matrix.diagonal (fun j : Fin n => s j * s j) := by
  ext i j
  rw [Matrix.mul_apply, Finset.sum_eq_single (Fin.castLE hmn i)]
  · simp only [Matrix.transpose_apply, svdSigma, Fin.coe_castLE, Matrix.diagonal_apply]
    by_cases h : (i : ℕ) = (j : ℕ)
    · have hij : i = j := Fin.ext h
      simp [hij]
    · have hij : ¬ i = j := fun hij => h (congrArg Fin.val hij)
      simp [h, hij]
  · intro b _ hb
    have hbi : ¬ (b : ℕ) = (i : ℕ) := fun hv => hb (Fin.ext (by simpa using hv))
    simp [Matrix.transpose_apply, svdSigma, hbi]
  · intro habs
    exact absurd (Finset.mem_univ _) habs

/-- For an SVD with orthogonal factors, the Gram determinant of `A` is
the product of the squared singular values. -/
lemma det_transpose_mul_self (m n : ℕ) (A : Matrix (Fin m) (Fin n) ℚ)
    (U : Matrix (Fin m) (Fin m) ℚ) (s : ℕ → ℚ) (VT : Matrix (Fin n) (Fin n) ℚ)
    (h : IsSVD m n A U s VT) (hmn : n ≤ m) :
    Matrix.det (Aᵀ * A) = ∏ j : Fin n, s j * s j := by
  obtain ⟨hA, hU, hV⟩ := h
  have hstruct : Aᵀ * A
      = VTᵀ * (Matrix.diagonal (fun j : Fin n => s j * s j) * VT) := by
    rw [hA]
    calc (U * svdSigma m n s * VT)ᵀ * (U * svdSigma m n s * VT)
        = (VTᵀ * (U * svdSigma m n s)ᵀ) * (U * svdSigma m n s * VT) := by
          rw [Matrix.transpose_mul (U * svdSigma m n s) VT]
      _ = (VTᵀ * ((svdSigma m n s)ᵀ * Uᵀ)) * (U * svdSigma m n s * VT) := by
          rw [Matrix.transpose_mul U (svdSigma m n s)]
      _ = VTᵀ * ((svdSigma m n s)ᵀ * ((Uᵀ * U) * (svdSigma m n s * VT))) := by
          simp only [Matrix.mul_assoc]
      _ = VTᵀ * ((svdSigma m n s)ᵀ * (svdSigma m n s * VT)) := by
          rw [hU, Matrix.one_mul]
      _ = VTᵀ * (((svdSigma m n s)ᵀ * svdSigma m n s) * VT) := by
          rw [Matrix.mul_assoc]
      _ = VTᵀ * (Matrix.diagonal (fun j : Fin n => s j * s j) * VT) := by
          rw [svdSigma_transpose_mul_self m n s hmn]
  have h1 : Matrix.det VTᵀ * Matrix.det VT = 1 := by
    rw [← Matrix.det_mul, hV, Matrix.det_one]
  have h2 : Matrix.det (Matrix.diagonal (fun j : Fin n => s j * s j))
      = ∏ j : Fin n, s j * s j := Matrix.det_diagonal
  rw [hstruct, Matrix.det_mul, Matrix.det_mul]
  calc Matrix.det VTᵀ *
        (Matrix.det (Matrix.diagonal (fun j : Fin n => s j * s j)) * Matrix.det VT)
      = (Matrix.det VTᵀ * Matrix.det VT) *
          Matrix.det (Matrix.diagonal (fun j : Fin n => s j * s j)) := by ring
    _ = ∏ j : Fin n, s j * s j := by rw [h1, one_mul, h2]

/-- Claim C5: the repository defines no error handling of its own: no
transcribed cell contains a guard (`try`/`except` or similar); the
element-wise tensor division is executed unguarded, and on the divisor
tensor actually supplied (all entries nonzero) its explicit error branch
is not taken; the 4 x 2 pseudoinverse input has nonzero Gram determinant
(full column rank), and for any matrix with nonzero Gram determinant all
the singular values any SVD can return are nonzero, so the unguarded
reciprocal `d = 1.0 / s` hits no zero. -/
theorem unguarded_operations_total :
    (allCells.all (fun c => !hasGuard c)) = true
    ∧ (∀ p ∈ tensorB, ∀ r ∈ p, ∀ x ∈ r, x ≠ 0)
    ∧ (checkedTensorDiv tensorA tensorB).isSome = true
    ∧ Matrix.det (A42ᵀ * A42) ≠ 0
    ∧ (∀ m n (A : Matrix (Fin m) (Fin n) ℚ) (U : Matrix (Fin m) (Fin m) ℚ)
        (s : ℕ → ℚ) (VT : Matrix (Fin n) (Fin n) ℚ),
        IsSVD m n A U s VT → n ≤ m → Matrix.det (Aᵀ * A) ≠ 0 →
          ∀ k, k < n → s k ≠ 0) := by
  refine ⟨by decide, by decide, by decide, ?_, ?_⟩
  · rw [Matrix.det_fin_two]
    simp [Matrix.mul_apply, A42, Fin.sum_univ_four]
    norm_num
  · intro m n A U s VT h hmn hdet k hk hsk
    apply hdet
    rw [det_transpose_mul_self m n A U s VT h hmn]
    exact Finset.prod_eq_zero (Finset.mem_univ (⟨k, hk⟩ : Fin n)) (by simp [hsk])

/-! ### Claim C6: the random-search cell is not deterministic -/

/-- Modelled from the spec: `RandomizedSearchCV(..., n_iter=100)` with no
`random_state` samples 100 alpha values from the random stream `r` (drawn
from a uniform distribution by the library; the stream is not determined
by the cell source). -/
def rsearchCandidates (r : ℕ → ℚ) : List ℚ := (List.range 100).map r

/-- Modelled from the spec: the search evaluates a model for each sampled
candidate and keeps a best-scoring one; `best_estimator_.alpha` is the
kept candidate. -/
def bestCandidate (score : ℚ → ℚ) (r : ℕ → ℚ) : ℚ :=
  (rsearchCandidates r).foldl (fun b x => if score b < score x then x else b) (r 0)

/-- The pair the random-search cell prints: `best_score_` and
`best_estimator_.alpha`. -/
def rsearchPrinted (score : ℚ → ℚ) (r : ℕ → ℚ) : ℚ × ℚ :=
  (score (bestCandidate score r), bestCandidate score r)

lemma bestCandidate_const (score : ℚ → ℚ) (a : ℚ) :
    bestCandidate score (fun _ => a) = a := by
  have h : ∀ xs : List ℚ, (∀ x ∈ xs, x = a) →
      xs.foldl (fun b x => if score b < score x then x else b) a = a := by
    intro xs
    induction xs with
    | nil => intro _; rfl
    | cons y ys ih =>
        intro hmem
        have hy : y = a := hmem y (by simp)
        simp only [List.foldl_cons, hy, ite_self]
        exact ih (fun x hx => hmem x (by simp [hx]))
  refine h _ ?_
  intro x hx
  simp only [rsearchCandidates, List.mem_map] at hx
  obtain ⟨i, -, hi⟩ := hx
  exact hi.symm

/-- Claim C6: the random-search cell is not deterministic: whatever the
(library-internal) score function is, there are two random streams — two
runs of the cell — for which the printed pair `best_score_`,
`best_estimator_.alpha` differs; the output is not a function of the cell
source alone. -/
theorem random_search_not_deterministic (score : ℚ → ℚ) :
    ∃ r₁ r₂ : ℕ → ℚ, rsearchPrinted score r₁ ≠ rsearchPrinted score r₂ := by
  refine ⟨fun _ => 3/10, fun _ => 7/10, ?_⟩
  intro hcontra
  have h1 : bestCandidate score (fun _ => 3/10)
      = bestCandidate score (fun _ => 7/10) := congrArg Prod.snd hcontra
  rw [bestCandidate_const score (3/10), bestCandidate_const score (7/10)] at h1
  norm_num at h1

/-- Witness for `random_search_not_deterministic` at the identity score
function. -/
theorem random_search_not_deterministic_witness :
    ∃ r₁ r₂ : ℕ → ℚ,
      rsearchPrinted (fun q => q) r₁ ≠ rsearchPrinted (fun q => q) r₂ :=
  random_search_not_deterministic (fun q => q)

end AppliedML
